import Mathlib

/-!
Verification of the Mercury runtime bootstrap module
(`runtime/mercury_bootstrap.c`): the generic fallback unify / index /
compare entry points for `std_util.type_info/0`, the static type
constructor descriptor, the transient-register save/restore discipline,
the weak-symbol fallback linkage, and the engine entry invoker.

The file embeds the C module shallowly:
* the structural comparator `MR_compare_type_info` lives outside this
  module (only its caller is in the file), so it is modelled from the
  spec's design-level algorithm;
* the three entry points, the static descriptor data and `call_engine`
  are translated directly from the C source;
* the abstract machine's register file is modelled as explicit state
  passed through the entry points, with the nested engine execution
  performed by the comparator abstracted as a state transformer.
-/

namespace MercuryBootstrap

/-! ### Type descriptors, as seen by the structural comparator

A runtime type descriptor (type_info), restricted to the fields the
structural comparator consults: the constructor arity, the two
identifying strings (byte lists), and the nested type-parameter
descriptors reachable through the layout metadata. -/

/-- A runtime type descriptor: arity, module name, type name (both as
byte lists, matching the length-prefixed C strings) and the nested
type-parameter descriptors captured in the layout metadata. -/
inductive TypeInfo where
  | mk (arity : Nat) (moduleName typeName : List Nat) (args : List TypeInfo)

/-- Lexicographic three-way comparison of byte lists, used for the
module-name and type-name fields. -/
def cmpBytes : List Nat → List Nat → Ordering
  | [], [] => .eq
  | [], _ :: _ => .lt
  | _ :: _, [] => .gt
  | x :: xs, y :: ys => (compare x y).then (cmpBytes xs ys)

mutual

/-- Modelled from the spec: `MR_compare_type_info` is declared in the
runtime headers but its body is not part of this module. Per the spec's
design-level algorithm, descriptors are ordered by arity first, then
lexicographically by module name, then type name, then by a recursive
structural comparison of the nested type-parameter descriptors. The
spec's pointer-identity short-circuit (same descriptor address implies
EQUAL) is semantically absorbed: the chain already returns `.eq` exactly
on structurally identical descriptors (see
`MR_compare_type_info_eq_iff`), and the one-descriptor-per-constructor
invariant identifies address equality with structural equality. -/
def MR_compare_type_info : TypeInfo → TypeInfo → Ordering
  | .mk a1 m1 t1 p1, .mk a2 m2 t2 p2 =>
    (compare a1 a2).then ((cmpBytes m1 m2).then
      ((cmpBytes t1 t2).then (MR_compare_type_info_list p1 p2)))

/-- Modelled from the spec: depth-first lexicographic comparison of the
nested type-parameter descriptor lists. -/
def MR_compare_type_info_list : List TypeInfo → List TypeInfo → Ordering
  | [], [] => .eq
  | [], _ :: _ => .lt
  | _ :: _, [] => .gt
  | x :: xs, y :: ys => (MR_compare_type_info x y).then (MR_compare_type_info_list xs ys)

end

/-! ### Comparator laws -/

theorem cmpBytes_eq_iff : ∀ l1 l2 : List Nat, cmpBytes l1 l2 = .eq ↔ l1 = l2 := by
  intro l1
  induction l1 with
  | nil => intro l2; cases l2 <;> simp [cmpBytes]
  | cons x xs ih =>
    intro l2
    cases l2 with
    | nil => simp [cmpBytes]
    | cons y ys =>
      simp [cmpBytes, Ordering.then_eq_eq, Nat.compare_eq_eq, ih]

theorem cmpBytes_swap : ∀ l1 l2 : List Nat, (cmpBytes l1 l2).swap = cmpBytes l2 l1 := by
  intro l1
  induction l1 with
  | nil => intro l2; cases l2 <;> simp [cmpBytes, Ordering.swap]
  | cons x xs ih =>
    intro l2
    cases l2 with
    | nil => simp [cmpBytes, Ordering.swap]
    | cons y ys =>
      simp [cmpBytes, Ordering.swap_then, Nat.compare_swap, ih]

/-- One lexicographic step: transitivity of `Ordering.then` chains whose
head comparisons agree under equality substitution. -/
theorem then_lt_step {cxy cyz cxz r12 r23 r13 : Ordering}
    (hlt : cxy = .lt → cyz = .lt → cxz = .lt)
    (heq1 : cxy = .eq → cxz = cyz)
    (heq2 : cyz = .eq → cxz = cxy)
    (hr : r12 = .lt → r23 = .lt → r13 = .lt)
    (h1 : cxy.then r12 = .lt) (h2 : cyz.then r23 = .lt) :
    cxz.then r13 = .lt := by
  rw [Ordering.then_eq_lt] at h1 h2 ⊢
  rcases h1 with h1 | ⟨h1, h1'⟩ <;> rcases h2 with h2 | ⟨h2, h2'⟩
  · exact .inl (hlt h1 h2)
  · rw [heq2 h2]; exact .inl h1
  · rw [heq1 h1]; exact .inl h2
  · rw [heq1 h1]; exact .inr ⟨h2, hr h1' h2'⟩

theorem cmpBytes_lt_trans :
    ∀ l1 l2 l3 : List Nat, cmpBytes l1 l2 = .lt → cmpBytes l2 l3 = .lt →
      cmpBytes l1 l3 = .lt := by
  intro l1
  induction l1 with
  | nil =>
    intro l2 l3 h1 h2
    cases l2 with
    | nil => exact h2
    | cons y ys => cases l3 with
      | nil => simp [cmpBytes] at h2
      | cons z zs => simp [cmpBytes]
  | cons x xs ih =>
    intro l2 l3 h1 h2
    cases l2 with
    | nil => simp [cmpBytes] at h1
    | cons y ys =>
      cases l3 with
      | nil => simp [cmpBytes] at h2
      | cons z zs =>
        simp only [cmpBytes] at h1 h2 ⊢
        refine then_lt_step ?_ ?_ ?_ (ih ys zs) h1 h2
        · intro ha hb
          rw [Nat.compare_eq_lt] at ha hb ⊢
          exact Nat.lt_trans ha hb
        · intro ha; rw [Nat.compare_eq_eq] at ha; rw [ha]
        · intro ha; rw [Nat.compare_eq_eq] at ha; rw [ha]

mutual

theorem MR_compare_type_info_eq_iff :
    ∀ a b : TypeInfo, MR_compare_type_info a b = .eq ↔ a = b
  | .mk a1 m1 t1 p1, .mk a2 m2 t2 p2 => by
    simp only [MR_compare_type_info, Ordering.then_eq_eq, Nat.compare_eq_eq,
      cmpBytes_eq_iff, TypeInfo.mk.injEq]
    rw [MR_compare_type_info_list_eq_iff p1 p2]

theorem MR_compare_type_info_list_eq_iff :
    ∀ l1 l2 : List TypeInfo, MR_compare_type_info_list l1 l2 = .eq ↔ l1 = l2
  | [], [] => by simp [MR_compare_type_info_list]
  | [], _ :: _ => by simp [MR_compare_type_info_list]
  | _ :: _, [] => by simp [MR_compare_type_info_list]
  | x :: xs, y :: ys => by
    simp only [MR_compare_type_info_list, Ordering.then_eq_eq, List.cons.injEq]
    rw [MR_compare_type_info_eq_iff x y, MR_compare_type_info_list_eq_iff xs ys]

end

mutual

theorem MR_compare_type_info_swap :
    ∀ a b : TypeInfo, (MR_compare_type_info a b).swap = MR_compare_type_info b a
  | .mk a1 m1 t1 p1, .mk a2 m2 t2 p2 => by
    simp only [MR_compare_type_info, Ordering.swap_then, Nat.compare_swap,
      cmpBytes_swap, MR_compare_type_info_list_swap p1 p2]

theorem MR_compare_type_info_list_swap :
    ∀ l1 l2 : List TypeInfo,
      (MR_compare_type_info_list l1 l2).swap = MR_compare_type_info_list l2 l1
  | [], [] => by simp [MR_compare_type_info_list, Ordering.swap]
  | [], _ :: _ => by simp [MR_compare_type_info_list, Ordering.swap]
  | _ :: _, [] => by simp [MR_compare_type_info_list, Ordering.swap]
  | x :: xs, y :: ys => by
    simp only [MR_compare_type_info_list, Ordering.swap_then,
      MR_compare_type_info_swap x y, MR_compare_type_info_list_swap xs ys]

end

mutual

theorem MR_compare_type_info_lt_trans :
    ∀ a b c : TypeInfo, MR_compare_type_info a b = .lt →
      MR_compare_type_info b c = .lt → MR_compare_type_info a c = .lt
  | .mk a1 m1 t1 p1, .mk a2 m2 t2 p2, .mk a3 m3 t3 p3 => by
    intro h1 h2
    simp only [MR_compare_type_info] at h1 h2 ⊢
    refine then_lt_step ?_ ?_ ?_ ?_ h1 h2
    · intro ha hb
      rw [Nat.compare_eq_lt] at ha hb ⊢
      exact Nat.lt_trans ha hb
    · intro ha; rw [Nat.compare_eq_eq] at ha; rw [ha]
    · intro ha; rw [Nat.compare_eq_eq] at ha; rw [ha]
    · intro h1' h2'
      refine then_lt_step ?_ ?_ ?_ ?_ h1' h2'
      · exact cmpBytes_lt_trans m1 m2 m3
      · intro ha; rw [cmpBytes_eq_iff] at ha; rw [ha]
      · intro ha; rw [cmpBytes_eq_iff] at ha; rw [ha]
      · intro h1'' h2''
        refine then_lt_step ?_ ?_ ?_ ?_ h1'' h2''
        · exact cmpBytes_lt_trans t1 t2 t3
        · intro ha; rw [cmpBytes_eq_iff] at ha; rw [ha]
        · intro ha; rw [cmpBytes_eq_iff] at ha; rw [ha]
        · exact MR_compare_type_info_list_lt_trans p1 p2 p3

theorem MR_compare_type_info_list_lt_trans :
    ∀ l1 l2 l3 : List TypeInfo, MR_compare_type_info_list l1 l2 = .lt →
      MR_compare_type_info_list l2 l3 = .lt → MR_compare_type_info_list l1 l3 = .lt
  | [], l2, l3 => by
    intro h1 h2
    cases l2 with
    | nil => exact h2
    | cons y ys =>
      cases l3 with
      | nil => simp [MR_compare_type_info_list] at h2
      | cons z zs => simp [MR_compare_type_info_list]
  | _ :: _, [], _ => by
    intro h1 _
    simp [MR_compare_type_info_list] at h1
  | x :: xs, y :: ys, l3 => by
    intro h1 h2
    cases l3 with
    | nil => simp [MR_compare_type_info_list] at h2
    | cons z zs =>
      simp only [MR_compare_type_info_list] at h1 h2 ⊢
      refine then_lt_step ?_ ?_ ?_ (MR_compare_type_info_list_lt_trans xs ys zs) h1 h2
      · exact MR_compare_type_info_lt_trans x y z
      · intro ha; rw [MR_compare_type_info_eq_iff] at ha; rw [ha]
      · intro ha; rw [MR_compare_type_info_eq_iff] at ha; rw [ha]

end

/-! ### The register file and the abstract machine state

The register file is a numbered set of slots (`r1, r2, ...`) holding
machine words; a word is either an integer or the address of a type
descriptor (identified with the descriptor it points to, per the
one-descriptor-per-constructor invariant). A designated subset of the
registers is transient: `save_transient_registers` copies the transient
slots into a backing store (the fake-register area) and
`restore_transient_registers` copies them back. -/

/-- A machine word: an integer, or a pointer to a type descriptor. -/
inductive Word where
  | int : Int → Word
  | ptr : TypeInfo → Word

/-- The descriptor a word points to (arbitrary when the word is not a
descriptor pointer; the entry points are only invoked on pointers). -/
def wordTI : Word → TypeInfo
  | .ptr t => t
  | .int _ => .mk 0 [] [] []

/-- The abstract machine state visible to this module: the register
file and the fake-register backing store used by the transient-register
save/restore discipline. -/
structure MachineState where
  regs : Nat → Word
  fakeRegs : Nat → Word

/-- Copies every transient register (membership given by `tr`) into the
fake-register backing store. -/
def save_transient_registers (tr : Nat → Bool) (s : MachineState) : MachineState :=
  { s with fakeRegs := fun i => if tr i then s.regs i else s.fakeRegs i }

/-- Copies every transient register back out of the fake-register
backing store. -/
def restore_transient_registers (tr : Nat → Bool) (s : MachineState) : MachineState :=
  { s with regs := fun i => if tr i then s.fakeRegs i else s.regs i }

/-! ### Result encoding

The comparator's C-level result is an `int` holding one of the three
constants from the runtime headers (headers outside this module;
values modelled from the runtime's convention: EQUAL = 0, LESS = 1,
GREATER = 2; the claims do not depend on the particular values, only on
the encoding being injective). -/

def COMPARE_EQUAL : Int := 0

def COMPARE_LESS : Int := 1

def COMPARE_GREATER : Int := 2

/-- The C `int` holding a comparator result. -/
def orderingToInt : Ordering → Int
  | .eq => COMPARE_EQUAL
  | .lt => COMPARE_LESS
  | .gt => COMPARE_GREATER

/-! ### The generic operation entry points

Each entry point is a state transformer on the machine state,
translated from the C bodies. The nested abstract-machine execution
that `MR_compare_type_info` may perform is abstracted by the `call`
parameter, applied between the save and the restore exactly as the C
code brackets the comparator call; the comparator's value is the pure
function defined above, read off the argument registers `r1`, `r2`. -/

/-- Generic unification entry point for `type_info`
(`mercury____Unify___std_util__type_info_0_0_bootstrap`): saves the
transient registers, runs the comparator on the descriptors in `r1` and
`r2`, restores the transient registers, and writes the C boolean
`comp == COMPARE_EQUAL` (1 or 0) into `r1`, then proceeds. -/
def mercury____Unify___std_util__type_info_0_0_bootstrap
    (tr : Nat → Bool) (call : MachineState → MachineState)
    (s : MachineState) : MachineState :=
  let s1 := save_transient_registers tr s
  let comp : Int :=
    orderingToInt (MR_compare_type_info (wordTI (s1.regs 1)) (wordTI (s1.regs 2)))
  let s2 := restore_transient_registers tr (call s1)
  { s2 with regs := fun i =>
      if i = 1 then .int (if comp = COMPARE_EQUAL then 1 else 0) else s2.regs i }

/-- Generic indexing entry point for `type_info`
(`mercury____Index___std_util__type_info_0_0_bootstrap`): writes the
sentinel `-1` into `r1` and proceeds. -/
def mercury____Index___std_util__type_info_0_0_bootstrap
    (s : MachineState) : MachineState :=
  { s with regs := fun i => if i = 1 then .int (-1) else s.regs i }

/-- Generic comparison entry point for `type_info`
(`mercury____Compare___std_util__type_info_0_0_bootstrap`): saves the
transient registers, runs the comparator on the descriptors in `r1` and
`r2`, restores the transient registers, and writes the comparator's
result into `r1`, then proceeds. -/
def mercury____Compare___std_util__type_info_0_0_bootstrap
    (tr : Nat → Bool) (call : MachineState → MachineState)
    (s : MachineState) : MachineState :=
  let s1 := save_transient_registers tr s
  let comp : Int :=
    orderingToInt (MR_compare_type_info (wordTI (s1.regs 1)) (wordTI (s1.regs 2)))
  let s2 := restore_transient_registers tr (call s1)
  { s2 with regs := fun i => if i = 1 then .int comp else s2.regs i }

/-! ### The static type constructor descriptor

The module defines one static descriptor,
`mercury_data_std_util__type_ctor_info_type_info_0`, as an
order-significant initializer list. It is modelled as a list of tagged
field values, one per C initializer, in source order. -/

/-- The well-known names of the three entry points defined by this
module. -/
inductive EntryName where
  | unifyBootstrap
  | indexBootstrap
  | compareBootstrap
deriving DecidableEq

/-- The two static data blocks defined by this module and pointed to by
the descriptor. -/
inductive DataName where
  | functorsBootstrap
  | layoutBootstrap
deriving DecidableEq

/-- One field of the descriptor's binary layout. -/
inductive FieldVal where
  | integer : Int → FieldVal
  | codeAddress : EntryName → FieldVal
  | pointer : DataName → FieldVal
  | lenString : Nat → String → FieldVal
deriving DecidableEq

/-- The kind of a descriptor field, for layout-shape statements. -/
inductive FieldKind where
  | integer
  | codeAddress
  | pointer
  | lenString
deriving DecidableEq

/-- The kind of a field value. -/
def fieldKind : FieldVal → FieldKind
  | .integer _ => .integer
  | .codeAddress _ => .codeAddress
  | .pointer _ => .pointer
  | .lenString _ _ => .lenString

/-- The static descriptor for `std_util.type_info/0`, field by field in
initializer order: arity 0, the three bootstrap entry points, the
integer 15 (the type representation code), the functors and layout
data pointers, and the two length-prefixed identifying strings. -/
def mercury_data_std_util__type_ctor_info_type_info_0 : List FieldVal :=
  [ .integer 0,
    .codeAddress .unifyBootstrap,
    .codeAddress .indexBootstrap,
    .codeAddress .compareBootstrap,
    .integer 15,
    .pointer .functorsBootstrap,
    .pointer .layoutBootstrap,
    .lenString 8 "std_util",
    .lenString 9 "type_info" ]

/-- The layout shape the specification describes: eight fields, with
nothing between the compare entry and the functors pointer. For the
refinement comparison only; the source initializer above is the
authority. -/
def specClaimedLayoutKinds : List FieldKind :=
  [ .integer,
    .codeAddress, .codeAddress, .codeAddress,
    .pointer, .pointer,
    .lenString, .lenString ]

/-- The entry points placed into the global table by the one-shot
module registration function `unify_univ_module_bootstrap`, in
`init_entry` order. -/
def unify_univ_module_bootstrap : List EntryName :=
  [ .unifyBootstrap, .indexBootstrap, .compareBootstrap ]

/-! ### Fallback linkage

Modelled from the spec: the weak-symbol resolution step is performed by
the linker, outside this module (the module's comment block documents
the contract). For each well-known name, a compiler-generated
specialized definition wins when present; otherwise the generic
definition from this module is kept. Exactly one definition per name
survives, fixed at link time. -/

/-- Modelled from the spec: link-time resolution of one well-known
name, given the optional compiler-generated specialized definition and
this module's generic definition. -/
def linkResolve {α : Type} (specialized : Option α) (generic : α) : α :=
  specialized.getD generic

/-- Modelled from the spec: the linked symbol table, resolving every
well-known name once, at link time. -/
def linkTable (specialized : EntryName → Option (Word → Word))
    (generic : EntryName → Word → Word) : EntryName → Word → Word :=
  fun n => linkResolve (specialized n) (generic n)

/-- Modelled from the spec: calling a well-known entry point invokes
whatever definition the linked table holds for its name. -/
def callLinked (linked : EntryName → Word → Word) (n : EntryName) (w : Word) : Word :=
  linked n w

/-! ### The engine entry invoker

`call_engine` wraps `MR_call_engine`, whose body is outside this
module. Modelled from the spec: the engine runs the abstract machine
from a given code address to completion, producing the final machine
state together with the success/failure outcome the invoked code
encoded in its continuation protocol. `call_engine` passes FALSE for
the second argument and discards the returned outcome. -/

/-- Modelled from the spec: `MR_call_engine` starts abstract-machine
execution at the given code address and returns when that execution
completes; `run` is the machine's execution function, giving final
state and encoded outcome. -/
def MR_call_engine (run : Nat → MachineState → MachineState × Bool)
    (entry_point : Nat) (_catch_exceptions : Bool)
    (s : MachineState) : MachineState × Bool :=
  run entry_point s

/-- The engine entry invoker from the C source: calls `MR_call_engine`
with FALSE and discards its value, leaving only the completed
execution's effect. -/
def call_engine (run : Nat → MachineState → MachineState × Bool)
    (entry_point : Nat) (s : MachineState) : MachineState :=
  (MR_call_engine run entry_point false s).1

/-! ### Helper lemmas and concrete witness data -/

theorem save_regs (tr : Nat → Bool) (s : MachineState) :
    (save_transient_registers tr s).regs = s.regs := rfl

theorem orderingToInt_inj : ∀ x y : Ordering, orderingToInt x = orderingToInt y → x = y := by
  intro x y
  cases x <;> cases y <;> simp [orderingToInt, COMPARE_EQUAL, COMPARE_LESS, COMPARE_GREATER]

/-- A concrete closed descriptor, used by the witness theorems. -/
def tiA : TypeInfo := .mk 0 [] [] []

/-- A second concrete descriptor, greater than `tiA` by arity. -/
def tiB : TypeInfo := .mk 1 [] [] []

/-- A third concrete descriptor, greater than `tiB` by arity. -/
def tiC : TypeInfo := .mk 2 [] [] []

/-- A concrete closed machine state with both argument registers
holding the descriptor `tiA`, used by the witness theorems. -/
def stA : MachineState := ⟨fun _ => .ptr tiA, fun _ => .int 0⟩

/-! ### The claims -/

/-- C1: for every pair of type descriptors `a`, `b` in the argument
registers, the generic Unify entry point writes into the output
register the boolean that is true exactly when the structural
comparator's result on `a` and `b` is EQUAL:
`unify(a,b) = true ↔ compare(a,b) = EQUAL`. -/
theorem unify_true_iff_compare_equal
    (tr : Nat → Bool) (call : MachineState → MachineState)
    (s : MachineState) (a b : TypeInfo)
    (h1 : s.regs 1 = .ptr a) (h2 : s.regs 2 = .ptr b) :
    (mercury____Unify___std_util__type_info_0_0_bootstrap tr call s).regs 1 =
      .int 1 ↔ MR_compare_type_info a b = .eq := by
  simp only [mercury____Unify___std_util__type_info_0_0_bootstrap, save_regs,
    h1, h2, wordTI, if_pos rfl]
  cases h : MR_compare_type_info a b <;>
    simp [orderingToInt, COMPARE_EQUAL, COMPARE_LESS, COMPARE_GREATER]

/-- C1 witness: at a concrete state holding `tiA` in both argument
registers, the Unify entry point's output equals 1 exactly when the
comparator returns EQUAL on `tiA`, `tiA`. -/
theorem unify_true_iff_compare_equal_witness :
    (mercury____Unify___std_util__type_info_0_0_bootstrap
        (fun _ => true) id stA).regs 1 = .int 1 ↔
      MR_compare_type_info tiA tiA = .eq :=
  unify_true_iff_compare_equal (fun _ => true) id stA tiA tiA rfl rfl

/-- C2: for every machine state, the generic Index entry point writes
the sentinel `-1` to the output register (so never a non-negative
index) and leaves every other register unchanged. -/
theorem index_writes_sentinel (s : MachineState) :
    (mercury____Index___std_util__type_info_0_0_bootstrap s).regs 1 = .int (-1) ∧
    (∀ w : Int,
      (mercury____Index___std_util__type_info_0_0_bootstrap s).regs 1 = .int w →
        w < 0) ∧
    (∀ i : Nat, i ≠ 1 →
      (mercury____Index___std_util__type_info_0_0_bootstrap s).regs i = s.regs i) := by
  refine ⟨rfl, ?_, ?_⟩
  · intro w hw
    have h' : (-1 : Int) = w := Word.int.inj hw
    omega
  · intro i hi
    simp [mercury____Index___std_util__type_info_0_0_bootstrap, hi]

/-- C2 witness: at the concrete state `stA`, the Index entry point
writes `-1` into `r1` and leaves `r2` unchanged. -/
theorem index_writes_sentinel_witness :
    (mercury____Index___std_util__type_info_0_0_bootstrap stA).regs 1 = .int (-1) ∧
    (mercury____Index___std_util__type_info_0_0_bootstrap stA).regs 2 = stA.regs 2 :=
  ⟨(index_writes_sentinel stA).1, (index_writes_sentinel stA).2.2 2 (by decide)⟩

/-- C3: the structural comparator's three-way result forms a valid
total order on type descriptors: `compare(a,b) = LESS` exactly when
`compare(b,a) = GREATER`, and LESS is transitive. -/
theorem compare_total_order :
    (∀ a b : TypeInfo,
      MR_compare_type_info a b = .lt ↔ MR_compare_type_info b a = .gt) ∧
    (∀ a b c : TypeInfo, MR_compare_type_info a b = .lt →
      MR_compare_type_info b c = .lt → MR_compare_type_info a c = .lt) := by
  refine ⟨?_, MR_compare_type_info_lt_trans⟩
  intro a b
  constructor
  · intro h
    rw [← MR_compare_type_info_swap a b, h]; rfl
  · intro h
    have hs := MR_compare_type_info_swap a b
    rw [h] at hs
    cases hab : MR_compare_type_info a b <;> rw [hab] at hs <;>
      first | rfl | exact absurd hs (by decide)

/-- C3 witness: on three concrete descriptors of arities 0, 1, 2, the
comparator returns LESS on each adjacent pair, transitivity yields LESS
on the outer pair, and antisymmetry yields GREATER on a swapped pair. -/
theorem compare_total_order_witness :
    MR_compare_type_info tiA tiB = .lt ∧
    MR_compare_type_info tiB tiC = .lt ∧
    MR_compare_type_info tiA tiC = .lt ∧
    MR_compare_type_info tiB tiA = .gt := by
  have hab : MR_compare_type_info tiA tiB = .lt := by
    simp only [tiA, tiB, MR_compare_type_info, MR_compare_type_info_list]
    decide
  have hbc : MR_compare_type_info tiB tiC = .lt := by
    simp only [tiB, tiC, MR_compare_type_info, MR_compare_type_info_list]
    decide
  exact ⟨hab, hbc, compare_total_order.2 tiA tiB tiC hab hbc,
    (compare_total_order.1 tiA tiB).1 hab⟩

/-- C4: for every descriptor `d`, comparing `d` with itself yields
EQUAL, and the Unify entry point invoked with `d` in both argument
registers writes true (the C integer 1) into the output register. -/
theorem compare_unify_reflexive (d : TypeInfo) :
    MR_compare_type_info d d = .eq ∧
    ∀ (tr : Nat → Bool) (call : MachineState → MachineState) (s : MachineState),
      s.regs 1 = .ptr d → s.regs 2 = .ptr d →
      (mercury____Unify___std_util__type_info_0_0_bootstrap tr call s).regs 1 =
        .int 1 := by
  have hd : MR_compare_type_info d d = .eq := (MR_compare_type_info_eq_iff d d).2 rfl
  refine ⟨hd, ?_⟩
  intro tr call s h1 h2
  simp [mercury____Unify___std_util__type_info_0_0_bootstrap, save_regs,
    h1, h2, wordTI, hd, orderingToInt]

/-- C4 witness: the concrete descriptor `tiA` compares EQUAL to itself
and unifies with itself at the concrete state `stA`. -/
theorem compare_unify_reflexive_witness :
    MR_compare_type_info tiA tiA = .eq ∧
    (mercury____Unify___std_util__type_info_0_0_bootstrap
        (fun _ => true) id stA).regs 1 = .int 1 :=
  ⟨(compare_unify_reflexive tiA).1,
    (compare_unify_reflexive tiA).2 (fun _ => true) id stA rfl rfl⟩

/-- C5: provided the nested comparator call keeps the fake-register
backing store intact, both the Unify and the Compare entry points leave
every transient caller register other than the result register `r1`
holding its pre-call value, because each saves the transient registers
before the nested call and restores them afterwards. -/
theorem entry_points_restore_transient_regs
    (tr : Nat → Bool) (call : MachineState → MachineState)
    (hcall : ∀ t : MachineState, (call t).fakeRegs = t.fakeRegs)
    (s : MachineState) (i : Nat) (hi : i ≠ 1) (htr : tr i = true) :
    (mercury____Unify___std_util__type_info_0_0_bootstrap tr call s).regs i =
      s.regs i ∧
    (mercury____Compare___std_util__type_info_0_0_bootstrap tr call s).regs i =
      s.regs i := by
  constructor <;>
    simp [mercury____Unify___std_util__type_info_0_0_bootstrap,
      mercury____Compare___std_util__type_info_0_0_bootstrap,
      restore_transient_registers, save_transient_registers, hcall, hi, htr]

/-- C5 witness: with every register transient and an identity nested
call, both entry points leave register `r2` of the concrete state `stA`
unchanged. -/
theorem entry_points_restore_transient_regs_witness :
    (mercury____Unify___std_util__type_info_0_0_bootstrap
        (fun _ => true) id stA).regs 2 = stA.regs 2 ∧
    (mercury____Compare___std_util__type_info_0_0_bootstrap
        (fun _ => true) id stA).regs 2 = stA.regs 2 :=
  entry_points_restore_transient_regs (fun _ => true) id (fun _ => rfl) stA 2
    (by decide) rfl

/-- C6: for every pair of descriptors `a`, `b` in the argument
registers, the Compare entry point writes exactly the structural
comparator's three-way result into the output register, under the
injective C integer encoding of the three outcomes. -/
theorem compare_entry_writes_comparator_result
    (tr : Nat → Bool) (call : MachineState → MachineState)
    (s : MachineState) (a b : TypeInfo)
    (h1 : s.regs 1 = .ptr a) (h2 : s.regs 2 = .ptr b) :
    (mercury____Compare___std_util__type_info_0_0_bootstrap tr call s).regs 1 =
      .int (orderingToInt (MR_compare_type_info a b)) ∧
    ∀ x y : Ordering, orderingToInt x = orderingToInt y → x = y := by
  refine ⟨?_, orderingToInt_inj⟩
  simp [mercury____Compare___std_util__type_info_0_0_bootstrap, save_regs,
    h1, h2, wordTI]

/-- C6 witness: at the concrete state `stA`, the Compare entry point
writes the encoded comparator result for `tiA`, `tiA` into `r1`. -/
theorem compare_entry_writes_comparator_result_witness :
    (mercury____Compare___std_util__type_info_0_0_bootstrap
        (fun _ => true) id stA).regs 1 =
      .int (orderingToInt (MR_compare_type_info tiA tiA)) :=
  (compare_entry_writes_comparator_result (fun _ => true) id stA tiA tiA rfl rfl).1

/-- Checks a field's length prefix: a length-prefixed string field must
carry the length of its string. -/
def lengthPrefixOk : FieldVal → Bool
  | .lenString n str => n = str.length
  | _ => true

/-- C7 counterexample: the descriptor's initializer does not have the
eight-field shape the claim states — its fifth field, between the
compare entry and the functors pointer, is the integer 15, not the
functors pointer. -/
theorem layout_claim_counterexample :
    mercury_data_std_util__type_ctor_info_type_info_0.map fieldKind ≠
      specClaimedLayoutKinds ∧
    mercury_data_std_util__type_ctor_info_type_info_0[4]? =
      some (.integer 15) := by decide

/-- C7 (amended): the descriptor's binary layout consists, in order, of
arity (integer), the unify, index and compare code addresses, one
additional integer field (the type representation code, 15 here)
between the compare entry and the functors pointer, the functors and
layout pointers, and the module-name and type-name length-prefixed
strings, each prefix carrying its string's length. -/
theorem layout_amended :
    mercury_data_std_util__type_ctor_info_type_info_0.map fieldKind =
      [ .integer,
        .codeAddress, .codeAddress, .codeAddress,
        .integer,
        .pointer, .pointer,
        .lenString, .lenString ] ∧
    mercury_data_std_util__type_ctor_info_type_info_0[0]? = some (.integer 0) ∧
    mercury_data_std_util__type_ctor_info_type_info_0[4]? = some (.integer 15) ∧
    mercury_data_std_util__type_ctor_info_type_info_0.all lengthPrefixOk = true := by
  decide

/-- C8: for every well-known entry-point name, link-time resolution
keeps a same-named compiler-generated specialized definition when one
exists — and calling the well-known entry point then invokes the
specialized behavior — and otherwise keeps the generic definition;
one definition per name survives, fixed in the linked table, not
chosen per call. -/
theorem weak_symbol_resolution
    (specialized : EntryName → Option (Word → Word))
    (generic : EntryName → Word → Word) (n : EntryName) :
    (∀ f : Word → Word, specialized n = some f →
      linkTable specialized generic n = f ∧
      ∀ w : Word, callLinked (linkTable specialized generic) n w = f w) ∧
    (specialized n = none →
      linkTable specialized generic n = generic n ∧
      ∀ w : Word, callLinked (linkTable specialized generic) n w = generic n w) := by
  constructor
  · intro f hf
    constructor
    · simp [linkTable, linkResolve, hf]
    · intro w; simp [callLinked, linkTable, linkResolve, hf]
  · intro hn
    constructor
    · simp [linkTable, linkResolve, hn]
    · intro w; simp [callLinked, linkTable, linkResolve, hn]

/-- C8 witness: with a concrete specialized compare definition (the
identity on words) registered alongside a generic one (constantly 0),
the linked well-known entry point invokes the specialized behavior;
with no specialized definition, it invokes the generic one. -/
theorem weak_symbol_resolution_witness :
    callLinked
      (linkTable (fun _ => some (fun w => w)) (fun _ => fun _ => .int 0))
      .compareBootstrap (.int 5) = .int 5 ∧
    callLinked
      (linkTable (fun _ => none) (fun _ => fun _ => .int 0))
      .compareBootstrap (.int 5) = .int 0 :=
  ⟨((weak_symbol_resolution (fun _ => some (fun w => w))
        (fun _ => fun _ => .int 0) .compareBootstrap).1
      (fun w => w) rfl).2 (.int 5),
   ((weak_symbol_resolution (fun _ => none)
        (fun _ => fun _ => .int 0) .compareBootstrap).2 rfl).2 (.int 5)⟩

/-- C9: the engine entry invoker, given one code address, produces
exactly the machine state reached by running the abstract machine to
completion from that address, and produces no value beyond that: the
success/failure outcome the invoked code encodes is discarded, so two
executions differing only in their outcomes are indistinguishable
through this interface. -/
theorem call_engine_runs_to_completion
    (run : Nat → MachineState → MachineState × Bool)
    (entry_point : Nat) (s : MachineState) :
    call_engine run entry_point s = (run entry_point s).1 ∧
    (∀ run' : Nat → MachineState → MachineState × Bool,
      (∀ (c : Nat) (t : MachineState), (run' c t).1 = (run c t).1) →
      call_engine run' entry_point s = call_engine run entry_point s) := by
  refine ⟨rfl, ?_⟩
  intro run' h
  simp [call_engine, MR_call_engine, h]

/-- C9 witness: for a concrete engine whose executions leave the state
unchanged, the invoker yields exactly that state, and flipping the
discarded outcome from failure to success changes nothing. -/
theorem call_engine_runs_to_completion_witness :
    call_engine (fun _ t => (t, false)) 0 stA = stA ∧
    call_engine (fun _ t => (t, true)) 0 stA =
      call_engine (fun _ t => (t, false)) 0 stA :=
  ⟨(call_engine_runs_to_completion (fun _ t => (t, false)) 0 stA).1,
   (call_engine_runs_to_completion (fun _ t => (t, false)) 0 stA).2
     (fun _ t => (t, true)) (fun _ _ => rfl)⟩

/-- C10: the single descriptor this module defines carries arity 0, the
module name "std_util" (length 8) and type name "type_info" (length 9),
and its three code-address fields are, in order, exactly the three
bootstrap entry points this module's one-shot registration function
places in the global table. -/
theorem descriptor_identifies_type_info :
    mercury_data_std_util__type_ctor_info_type_info_0[0]? =
      some (.integer 0) ∧
    mercury_data_std_util__type_ctor_info_type_info_0[1]? =
      some (.codeAddress .unifyBootstrap) ∧
    mercury_data_std_util__type_ctor_info_type_info_0[2]? =
      some (.codeAddress .indexBootstrap) ∧
    mercury_data_std_util__type_ctor_info_type_info_0[3]? =
      some (.codeAddress .compareBootstrap) ∧
    mercury_data_std_util__type_ctor_info_type_info_0[7]? =
      some (.lenString 8 "std_util") ∧
    mercury_data_std_util__type_ctor_info_type_info_0[8]? =
      some (.lenString 9 "type_info") ∧
    unify_univ_module_bootstrap =
      [.unifyBootstrap, .indexBootstrap, .compareBootstrap] ∧
    (mercury_data_std_util__type_ctor_info_type_info_0.filterMap
        (fun f => match f with | .codeAddress e => some e | _ => none)) =
      unify_univ_module_bootstrap := by
  decide

end MercuryBootstrap
